import Mathlib

/-!
Verification development for the message retrieval and context-expansion core
of the whatsapp-mcp repository (src/whatsapp-mcp-server/whatsapp.py and
src/whatsapp-mcp-server/main.py).

The per-user relational store is modelled as an in-memory snapshot `Db`
(a `chats` table and a `messages` table).  A connection that may fail at
open/query time is modelled as `Option Db`; `none` stands for an sqlite3
error (connection or query failure).  Timestamps are modelled as `Nat`
(the store keeps ISO-8601 strings whose comparison order coincides with
chronological order); the external `datetime.fromisoformat` library parser
is modelled by `parseIso`, which accepts exactly the digit strings.
SQLite `LIKE` is case-insensitive for ASCII, modelled by lowering both
sides; `ORDER BY` is modelled as a stable insertion sort, matching the
spec's "ties broken by undefined but stable storage order" reading and
Python's stable `list.sort`.
-/

namespace WhatsappMcp

/-! ### Data model -/

/-- One row of the `messages` table of the per-user store. -/
structure MsgRow where
  id : String
  chat_jid : String
  timestamp : Nat
  sender : String
  content : String
  is_from_me : Bool
  media_type : Option String
deriving Repr, DecidableEq

/-- One row of the `chats` table of the per-user store. -/
structure ChatRow where
  jid : String
  name : Option String
  last_message_time : Option Nat
  is_allowed : Bool
deriving Repr, DecidableEq

/-- The per-user relational store consumed by the core (read-only). -/
structure Db where
  chats : List ChatRow
  messages : List MsgRow
deriving Repr, DecidableEq

/-- The `Message` dataclass of whatsapp.py. -/
structure Message where
  timestamp : Nat
  sender : String
  content : String
  is_from_me : Bool
  chat_jid : String
  id : String
  chat_name : Option String
  media_type : Option String
deriving Repr, DecidableEq

/-- The `Chat` dataclass of whatsapp.py. -/
structure Chat where
  jid : String
  name : Option String
  last_message_time : Option Nat
  last_message : Option String
  last_sender : Option String
  last_sender_name : Option String
  last_is_from_me : Option Bool
deriving Repr, DecidableEq

/-- The `Contact` dataclass of whatsapp.py. -/
structure Contact where
  phone_number : String
  name : Option String
  jid : String
deriving Repr, DecidableEq

/-- The `MessageContext` dataclass of whatsapp.py. -/
structure MessageContext where
  message : Message
  before : List Message
  after : List Message
deriving Repr, DecidableEq

/-- Failures of the core: a malformed filter (Python `ValueError` from date
parsing), a missing message id (`ValueError` in `get_message_context`),
and a store failure (`sqlite3.Error`). -/
inductive WaError where
  | invalidFilter (field : String) (value : String)
  | notFound (message_id : String)
  | dbError
deriving Repr, DecidableEq

/-! ### String and SQL helpers -/

/-- `listHasSub hay needle`: `needle` occurs as a contiguous sublist of
`hay` (the Python `in` operator on strings). -/
def listHasSub : List Char → List Char → Bool
  | hay, needle =>
    needle.isPrefixOf hay ||
      match hay with
      | [] => false
      | _ :: t => listHasSub t needle

/-- The Python substring test `needle in hay`. -/
def strIncludes (hay needle : String) : Bool :=
  listHasSub hay.data needle.data

/-- ASCII lowering of a string (Python `str.lower`, SQL `LOWER`). -/
def lowerStr (s : String) : String :=
  ⟨s.data.map Char.toLower⟩

/-- `v LIKE '%pat%'` with SQLite's default ASCII-case-insensitive `LIKE`. -/
def sqlLikeContains (v pat : String) : Bool :=
  listHasSub (lowerStr v).data (lowerStr pat).data

/-- Python `str.endswith` (case-sensitive). -/
def strEndsWith (s suffix : String) : Bool :=
  suffix.data.isSuffixOf s.data

/-- `v LIKE '%pat'` with SQLite's default ASCII-case-insensitive `LIKE`. -/
def sqlLikeEndsWith (v pat : String) : Bool :=
  strEndsWith (lowerStr v) (lowerStr pat)

/-- Python truthiness of optional string parameters: an absent parameter and
an empty string both skip the corresponding filter (`if param:`). -/
def optStr : Option String → Option String
  | none => none
  | some s => if s = "" then none else some s

/-- Chat-jid ambiguity resolution of whatsapp.py: a jid lacking a recognized
suffix gets the direct-chat suffix appended. -/
def normalizeJid (jid : String) : String :=
  if strEndsWith jid "@s.whatsapp.net" || strEndsWith jid "@g.us" then jid
  else jid ++ "@s.whatsapp.net"

/-- Model of the external ISO-8601 parser `datetime.fromisoformat`: in this
embedding timestamps are naturals and exactly the non-empty digit strings
parse. -/
def parseIso (s : String) : Option Nat :=
  if !s.data.isEmpty && s.data.all Char.isDigit then
    some (s.data.foldl (fun n c => n * 10 + (c.toNat - 48)) 0)
  else none

/-- Date-bound handling of `list_messages`: a falsy (absent or empty) bound
is skipped, an unparseable one raises `ValueError` naming the bound and the
offending value. -/
def parseBound (field : String) : Option String → Except WaError (Option Nat)
  | none => Except.ok none
  | some s =>
    if s = "" then Except.ok none
    else
      match parseIso s with
      | some t => Except.ok (some t)
      | none => Except.error (WaError.invalidFilter field s)

/-! ### Join and message query (Query Builder + Store Accessor) -/

/-- Build the `Message` dataclass from a joined (message, chat) row, exactly
as the SELECT list of `list_messages` does (`chats.jid` is used as the
`chat_jid` of the result, `chats.name` as `chat_name`). -/
def mkMessage (m : MsgRow) (c : ChatRow) : Message :=
  { timestamp := m.timestamp
    sender := m.sender
    content := m.content
    is_from_me := m.is_from_me
    chat_jid := c.jid
    id := m.id
    chat_name := c.name
    media_type := m.media_type }

/-- `messages JOIN chats ON messages.chat_jid = chats.jid`, row pairs in
storage order (at most one chat row per message row; `chats.jid` is the key). -/
def joinedRows (db : Db) : List (MsgRow × ChatRow) :=
  db.messages.filterMap fun m =>
    (db.chats.find? fun c => c.jid == m.chat_jid).map fun c => (m, c)

/-- All joined message records of the store, in storage order. -/
def joinAllMsgs (db : Db) : List Message :=
  (joinedRows db).map fun p => mkMessage p.1 p.2

/-- The WHERE clause assembled by `list_messages` for one joined row:
optional strict date bounds, sender equality, chat equality, case-insensitive
content substring, and always the access flag plus the group-only restriction. -/
def rowPasses (afterTs beforeTs : Option Nat) (sender chatJ query : Option String)
    (p : MsgRow × ChatRow) : Bool :=
  (match afterTs with | some a => decide (a < p.1.timestamp) | none => true) &&
  (match beforeTs with | some b => decide (p.1.timestamp < b) | none => true) &&
  (match sender with | some s => p.1.sender == s | none => true) &&
  (match chatJ with | some j => p.1.chat_jid == j | none => true) &&
  (match query with | some q => sqlLikeContains p.1.content q | none => true) &&
  (p.2.is_allowed && sqlLikeEndsWith p.2.jid "@g.us")

/-- Descending-timestamp order on messages (`ORDER BY messages.timestamp DESC`). -/
def rMsgDesc (x y : Message) : Prop := y.timestamp ≤ x.timestamp

instance : DecidableRel rMsgDesc := fun x y =>
  inferInstanceAs (Decidable (y.timestamp ≤ x.timestamp))

instance : IsTotal Message rMsgDesc :=
  ⟨fun a b => Nat.le_total b.timestamp a.timestamp⟩

instance : IsTrans Message rMsgDesc :=
  ⟨fun _ _ _ h1 h2 => Nat.le_trans h2 h1⟩

/-- Ascending-timestamp order on messages (`ORDER BY messages.timestamp ASC`). -/
def rMsgAsc (x y : Message) : Prop := x.timestamp ≤ y.timestamp

instance : DecidableRel rMsgAsc := fun x y =>
  inferInstanceAs (Decidable (x.timestamp ≤ y.timestamp))

instance : IsTotal Message rMsgAsc :=
  ⟨fun a b => Nat.le_total a.timestamp b.timestamp⟩

instance : IsTrans Message rMsgAsc :=
  ⟨fun _ _ _ h1 h2 => Nat.le_trans h1 h2⟩

/-- The message page query of `list_messages`: joined rows filtered by the
WHERE clause, ordered by timestamp descending, then `LIMIT limit OFFSET
page * limit`. -/
def queryMessages (db : Db) (afterTs beforeTs : Option Nat)
    (sender chatJ query : Option String) (limit page : Nat) : List Message :=
  let kept := (joinedRows db).filter (rowPasses afterTs beforeTs sender chatJ query)
  let sorted := List.insertionSort rMsgDesc (kept.map fun p => mkMessage p.1 p.2)
  (sorted.drop (page * limit)).take limit

/-! ### Context Expander (`get_message_context`) -/

/-- Up to `n` messages of chat `chatJ` strictly before `ts`, newest first
(`ORDER BY messages.timestamp DESC LIMIT n`), exactly as fetched — the code
never re-reverses this list. -/
def ctxBefore (db : Db) (chatJ : String) (ts : Nat) (n : Nat) : List Message :=
  (List.insertionSort rMsgDesc
    ((joinAllMsgs db).filter fun x => x.chat_jid == chatJ && decide (x.timestamp < ts))).take n

/-- Up to `n` messages of chat `chatJ` strictly after `ts`, oldest first
(`ORDER BY messages.timestamp ASC LIMIT n`). -/
def ctxAfter (db : Db) (chatJ : String) (ts : Nat) (n : Nat) : List Message :=
  (List.insertionSort rMsgAsc
    ((joinAllMsgs db).filter fun x => x.chat_jid == chatJ && decide (ts < x.timestamp))).take n

/-- `get_message_context` of whatsapp.py.  A store failure is re-raised
(`except sqlite3.Error: ... raise`), a missing id raises `ValueError`
(`notFound`); no access-flag filter is applied here. -/
def get_message_context (conn : Option Db) (message_id : String)
    (before after : Nat) : Except WaError MessageContext :=
  match conn with
  | none => Except.error WaError.dbError
  | some db =>
    match (joinAllMsgs db).find? (fun x => x.id == message_id) with
    | none => Except.error (WaError.notFound message_id)
    | some target =>
      Except.ok
        { message := target
          before := ctxBefore db target.chat_jid target.timestamp before
          after := ctxAfter db target.chat_jid target.timestamp after }

/-! ### Message Lister (`list_messages`) -/

/-- The per-candidate context stitching loop of `list_messages`: for each
candidate, its before-context, the (re-fetched) target, and its
after-context; exceptions from `get_message_context` propagate. -/
def stitchCtx (conn : Option Db) (cb ca : Nat) :
    List Message → Except WaError (List Message)
  | [] => Except.ok []
  | m :: rest =>
    match get_message_context conn m.id cb ca with
    | Except.error e => Except.error e
    | Except.ok c =>
      match stitchCtx conn cb ca rest with
      | Except.error e => Except.error e
      | Except.ok tail => Except.ok (c.before ++ [c.message] ++ c.after ++ tail)

/-- The pure shape of the stitched page: for every candidate in page order,
before-context, the candidate itself, after-context, concatenated. -/
def stitchPure (db : Db) (cb ca : Nat) : List Message → List Message
  | [] => []
  | m :: rest =>
    ctxBefore db m.chat_jid m.timestamp cb ++ [m] ++
      ctxAfter db m.chat_jid m.timestamp ca ++ stitchPure db cb ca rest

/-- `list_messages` of whatsapp.py.  A store failure yields `ok []`
(`except sqlite3.Error: ... return []`); a malformed date bound raises
`ValueError` (not an `sqlite3.Error`, hence propagated); with
`include_context` and a non-empty page the flat page is replaced by the
stitched one. -/
def list_messages (conn : Option Db) (after before : Option String)
    (sender_phone_number chat_jid query : Option String) (limit page : Nat)
    (include_context : Bool) (context_before context_after : Nat) :
    Except WaError (List Message) :=
  match conn with
  | none => Except.ok []
  | some db =>
    match parseBound "after" after with
    | Except.error e => Except.error e
    | Except.ok afterTs =>
      match parseBound "before" before with
      | Except.error e => Except.error e
      | Except.ok beforeTs =>
        let candidates := queryMessages db afterTs beforeTs
          (optStr sender_phone_number) ((optStr chat_jid).map normalizeJid)
          (optStr query) limit page
        if include_context && !candidates.isEmpty then
          stitchCtx conn context_before context_after candidates
        else Except.ok candidates

/-! ### Chat Lister / Contact Search -/

/-- The chat-query clause of `list_chats`:
`(LOWER(chats.name) LIKE LOWER(?) OR chats.jid LIKE ?)`; a NULL name never
matches. -/
def chatQueryPasses (query : Option String) (c : ChatRow) : Bool :=
  match query with
  | none => true
  | some q =>
    (match c.name with | some n => sqlLikeContains n q | none => false) ||
      sqlLikeContains c.jid q

/-- `ORDER BY chats.last_message_time DESC` (SQLite puts NULLs last in a
descending sort). -/
def rChatActive (x y : ChatRow) : Prop :=
  (match y.last_message_time with | none => 0 | some t => t + 1) ≤
    (match x.last_message_time with | none => 0 | some t => t + 1)

instance : DecidableRel rChatActive := fun x y =>
  inferInstanceAs (Decidable (_ ≤ _))

/-- `ORDER BY chats.name` (SQLite puts NULLs first in an ascending sort). -/
def rChatName (x y : ChatRow) : Prop :=
  (match x.name, y.name with
   | none, _ => true
   | some _, none => false
   | some a, some b => decide (a ≤ b)) = true

instance : DecidableRel rChatName := fun x y =>
  inferInstanceAs (Decidable (_ = true))

/-- The denormalized last-message columns of `list_chats`: the LEFT JOIN on
`chats.jid = messages.chat_jid AND chats.last_message_time =
messages.timestamp`, plus the sender-chat name lookup. -/
def mkChatOut (db : Db) (c : ChatRow) : Chat :=
  let lastMsg := db.messages.find? fun m =>
    m.chat_jid == c.jid &&
      (match c.last_message_time with | some t => m.timestamp == t | none => false)
  { jid := c.jid
    name := c.name
    last_message_time := c.last_message_time
    last_message := lastMsg.map fun m => m.content
    last_sender := lastMsg.map fun m => m.sender
    last_sender_name := lastMsg.bind fun m =>
      (db.chats.find? fun sc => sc.jid == m.sender).bind fun sc => sc.name
    last_is_from_me := lastMsg.map fun m => m.is_from_me }

/-- `list_chats` of whatsapp.py: access-flag and group-suffix filter, name/jid
substring search, sort by last activity or name, offset/limit pagination; a
store failure yields `[]`.  With `include_last_message = False` the built SQL
still references `messages.content` without the join, so the query itself
fails (`sqlite3.OperationalError`) and the function returns `[]`. -/
def list_chats (conn : Option Db) (query : Option String) (limit page : Nat)
    (include_last_message : Bool) (sort_by : String) : List Chat :=
  match conn with
  | none => []
  | some db =>
    if include_last_message then
      let kept := db.chats.filter fun c =>
        chatQueryPasses (optStr query) c && (c.is_allowed && sqlLikeEndsWith c.jid "@g.us")
      let sorted :=
        if sort_by = "last_active" then List.insertionSort rChatActive kept
        else List.insertionSort rChatName kept
      ((sorted.drop (page * limit)).take limit).map (mkChatOut db)
    else []

/-- `ORDER BY name, jid` of `search_contacts` (NULL names first). -/
def rContactOrd (x y : ChatRow) : Prop :=
  ((match x.name, y.name with
    | none, none => decide (x.jid ≤ y.jid)
    | none, some _ => true
    | some _, none => false
    | some a, some b => if a = b then decide (x.jid ≤ y.jid) else decide (a ≤ b)) = true)

instance : DecidableRel rContactOrd := fun x y =>
  inferInstanceAs (Decidable (_ = true))

/-- `search_contacts` of whatsapp.py: case-insensitive name/jid substring
match, group jids excluded, ordered by name then jid, `LIMIT 50`; the phone
number is the jid up to its first `@`.  Note: no access-flag (`is_allowed`)
condition appears in this query. -/
def search_contacts (conn : Option Db) (query : String) : List Contact :=
  match conn with
  | none => []
  | some db =>
    let kept := db.chats.filter fun c =>
      ((match c.name with | some n => sqlLikeContains n query | none => false) ||
        sqlLikeContains c.jid query) &&
        !sqlLikeEndsWith c.jid "@g.us"
    ((List.insertionSort rContactOrd kept).take 50).map fun c =>
      { phone_number := ⟨c.jid.data.takeWhile fun ch => ch != '@'⟩
        name := c.name
        jid := c.jid }

/-! ### Keyword Filter (main.py) -/

/-- The `context_type` tag attached during context stitching. -/
inductive CtxRole where
  | beforeCtx
  | matchCtx
  | afterCtx
deriving Repr, DecidableEq

/-- A message record as returned by the keyword filters: the base message
dict, optionally annotated with `matched_keywords` and/or `context_type`. -/
structure OutMsg where
  msg : Message
  matched_keywords : Option (List String)
  context_type : Option CtxRole
deriving Repr, DecidableEq

/-- The per-message keyword test of both keyword filters: normalize case per
`case_sensitive`, keep each (original) keyword whose normalized form occurs
as a substring of the normalized content. -/
def matchedKeywords (case_sensitive : Bool) (keywords : List String)
    (m : Message) : List String :=
  let content := if case_sensitive then m.content else lowerStr m.content
  keywords.filter fun kw =>
    strIncludes content (if case_sensitive then kw else lowerStr kw)

/-- The keyword-matching step as a set operation on messages: keep exactly
the messages with at least one matching keyword. -/
def keepMatching (case_sensitive : Bool) (keywords : List String)
    (msgs : List Message) : List Message :=
  msgs.filter fun m => !(matchedKeywords case_sensitive keywords m).isEmpty

/-- The match-collection loop of `filter_messages_by_keywords`: drop
messages with no matching keyword, annotate the kept ones. -/
def kwAnnotate (case_sensitive : Bool) (keywords : List String)
    (msgs : List Message) : List OutMsg :=
  msgs.filterMap fun m =>
    let mk := matchedKeywords case_sensitive keywords m
    if mk.isEmpty then none
    else some { msg := m, matched_keywords := some mk, context_type := none }

/-- Descending-timestamp order on annotated messages (the
`sort(key=timestamp, reverse=True)` step). -/
def rOutDesc (x y : OutMsg) : Prop := y.msg.timestamp ≤ x.msg.timestamp

instance : DecidableRel rOutDesc := fun x y =>
  inferInstanceAs (Decidable (y.msg.timestamp ≤ x.msg.timestamp))

instance : IsTotal OutMsg rOutDesc :=
  ⟨fun a b => Nat.le_total b.msg.timestamp a.msg.timestamp⟩

instance : IsTrans OutMsg rOutDesc :=
  ⟨fun _ _ _ h1 h2 => Nat.le_trans h2 h1⟩

/-- The context-stitching loop shared by both keyword filters: per surviving
match, its before-context tagged `before`, the match itself tagged `match`,
its after-context tagged `after`; exceptions propagate to the caller's
`except` clause. -/
def stitchKw (conn : Option Db) (cb ca : Nat) :
    List OutMsg → Except WaError (List OutMsg)
  | [] => Except.ok []
  | o :: rest =>
    match get_message_context conn o.msg.id cb ca with
    | Except.error e => Except.error e
    | Except.ok c =>
      match stitchKw conn cb ca rest with
      | Except.error e => Except.error e
      | Except.ok tail =>
        Except.ok
          ((c.before.map fun m =>
              { msg := m, matched_keywords := none, context_type := some CtxRole.beforeCtx }) ++
            [{ o with context_type := some CtxRole.matchCtx }] ++
            (c.after.map fun m =>
              { msg := m, matched_keywords := none, context_type := some CtxRole.afterCtx }) ++
            tail)

/-- Result record of `filter_messages_by_keywords` (the echo-only fields
`filters_applied` and `message` are omitted). -/
structure FilterResult where
  success : Bool
  filtered_messages : List OutMsg
  total_matches : Nat
  keywords_used : List String
deriving Repr, DecidableEq

/-- `filter_messages_by_keywords` of main.py: fetch candidates through
`list_messages` with a fixed cap of 1000 and context disabled, keep keyword
matches, sort newest-first, slice the page, optionally stitch context; any
exception yields a failure record. -/
def filter_messages_by_keywords (conn : Option Db) (keywords : List String)
    (chat_jid after before sender_phone_number : Option String)
    (case_sensitive include_context : Bool)
    (context_before context_after limit page : Nat) : FilterResult :=
  match list_messages conn after before sender_phone_number chat_jid none
      1000 0 false 0 0 with
  | Except.error _ =>
    { success := false, filtered_messages := [], total_matches := 0,
      keywords_used := keywords }
  | Except.ok all_messages =>
    if all_messages.isEmpty then
      { success := true, filtered_messages := [], total_matches := 0,
        keywords_used := keywords }
    else
      let keyword_matches := kwAnnotate case_sensitive keywords all_messages
      let sorted := List.insertionSort rOutDesc keyword_matches
      let paginated := (sorted.drop (page * limit)).take limit
      match (if include_context && !paginated.isEmpty then
               stitchKw conn context_before context_after paginated
             else Except.ok paginated) with
      | Except.error _ =>
        { success := false, filtered_messages := [], total_matches := 0,
          keywords_used := keywords }
      | Except.ok finalMsgs =>
        { success := true, filtered_messages := finalMsgs,
          total_matches := keyword_matches.length, keywords_used := keywords }

/-! ### Multi-chat Keyword Filter (`filter_messages_by_keywords_in_chats`) -/

/-- Association-list lookup for the `matches_per_chat` dict. -/
def lookupAssoc (k : String) : List (String × Nat) → Option Nat
  | [] => none
  | p :: rest => if p.1 == k then some p.2 else lookupAssoc k rest

/-- Python dict assignment `d[k] = v` (insertion order preserved). -/
def setAssoc (k : String) (v : Nat) : List (String × Nat) → List (String × Nat)
  | [] => [(k, v)]
  | p :: rest => if p.1 == k then (p.1, v) :: rest else p :: setAssoc k v rest

/-- Python `if k in d: d[k] += 1` (an absent key is left absent). -/
def bumpAssoc (k : String) : List (String × Nat) → List (String × Nat)
  | [] => []
  | p :: rest => if p.1 == k then (p.1, p.2 + 1) :: rest else p :: bumpAssoc k rest

/-- The per-chat collection loop of `filter_messages_by_keywords_in_chats`:
fetch each chat's candidates (cap 1000, context disabled); a chat with at
least one candidate contributes its messages and a counter initialized to 0;
a chat with no candidates contributes nothing. -/
def collectChats (conn : Option Db) (after before sender : Option String) :
    List String → List Message → List (String × Nat) →
      Except WaError (List Message × List (String × Nat))
  | [], accM, accP => Except.ok (accM, accP)
  | cj :: rest, accM, accP =>
    match list_messages conn after before sender (some cj) none 1000 0 false 0 0 with
    | Except.error e => Except.error e
    | Except.ok msgs =>
      if msgs.isEmpty then collectChats conn after before sender rest accM accP
      else collectChats conn after before sender rest (accM ++ msgs) (setAssoc cj 0 accP)

/-- The keyword-matching loop of the multi-chat filter: keep annotated
matches in order and bump the per-chat counter of each match's chat (when
that chat has a counter). -/
def matchLoop (case_sensitive : Bool) (keywords : List String) :
    List Message → List (String × Nat) → List OutMsg × List (String × Nat)
  | [], per => ([], per)
  | m :: rest, per =>
    let mk := matchedKeywords case_sensitive keywords m
    if mk.isEmpty then matchLoop case_sensitive keywords rest per
    else
      let res := matchLoop case_sensitive keywords rest (bumpAssoc m.chat_jid per)
      ({ msg := m, matched_keywords := some mk, context_type := none } :: res.1,
        res.2)

/-- Result record of `filter_messages_by_keywords_in_chats` (echo-only
fields omitted). -/
structure ChatsFilterResult where
  success : Bool
  filtered_messages : List OutMsg
  total_matches : Nat
  keywords_used : List String
  chat_jids_searched : List String
  matches_per_chat : List (String × Nat)
deriving Repr, DecidableEq

/-- `filter_messages_by_keywords_in_chats` of main.py: an empty jid list
fails fast before any query; candidates are collected per chat; matches are
kept, counted per chat, sorted newest-first and sliced; context is stitched
only when `include_context` is set and `return_original_only` is not. -/
def filter_messages_by_keywords_in_chats (conn : Option Db)
    (keywords : List String) (chat_jids : List String)
    (after before sender_phone_number : Option String)
    (case_sensitive include_context : Bool)
    (context_before context_after limit page : Nat)
    (return_original_only : Bool) : ChatsFilterResult :=
  if chat_jids.isEmpty then
    { success := false, filtered_messages := [], total_matches := 0,
      keywords_used := keywords, chat_jids_searched := [], matches_per_chat := [] }
  else
    match collectChats conn after before sender_phone_number chat_jids [] [] with
    | Except.error _ =>
      { success := false, filtered_messages := [], total_matches := 0,
        keywords_used := keywords, chat_jids_searched := chat_jids,
        matches_per_chat := [] }
    | Except.ok (allMsgs, perInit) =>
      if allMsgs.isEmpty then
        { success := true, filtered_messages := [], total_matches := 0,
          keywords_used := keywords, chat_jids_searched := chat_jids,
          matches_per_chat := perInit }
      else
        let res := matchLoop case_sensitive keywords allMsgs perInit
        let sorted := List.insertionSort rOutDesc res.1
        let paginated := (sorted.drop (page * limit)).take limit
        match (if include_context && !return_original_only && !paginated.isEmpty then
                 stitchKw conn context_before context_after paginated
               else Except.ok paginated) with
        | Except.error _ =>
          { success := false, filtered_messages := [], total_matches := 0,
            keywords_used := keywords, chat_jids_searched := chat_jids,
            matches_per_chat := [] }
        | Except.ok finalMsgs =>
          { success := true, filtered_messages := finalMsgs,
            total_matches := res.1.length, keywords_used := keywords,
            chat_jids_searched := chat_jids, matches_per_chat := res.2 }

/-- The single-chat candidate fetch of the multi-chat filter, unwrapped (it
never fails for valid date bounds). -/
def flatFetch (db : Db) (sender : Option String) (cj : String) : List Message :=
  match list_messages (some db) none none sender (some cj) none 1000 0 false 0 0 with
  | Except.ok l => l
  | Except.error _ => []

/-- Concatenation of all per-chat candidate fetches, in supplied-jid order. -/
def collectedMsgs (db : Db) (sender : Option String) : List String → List Message
  | [] => []
  | cj :: rest => flatFetch db sender cj ++ collectedMsgs db sender rest

/-- The per-chat counter initialization as a fold over the supplied jids. -/
def collectPer (db : Db) (sender : Option String) :
    List String → List (String × Nat) → List (String × Nat)
  | [], accP => accP
  | cj :: rest, accP =>
    if (flatFetch db sender cj).isEmpty then collectPer db sender rest accP
    else collectPer db sender rest (setAssoc cj 0 accP)

/-- Number of keyword matches attributed to chat key `cj` among `msgs`. -/
def matchCount (case_sensitive : Bool) (keywords : List String) (cj : String)
    (msgs : List Message) : Nat :=
  (msgs.filter fun m =>
    !(matchedKeywords case_sensitive keywords m).isEmpty && m.chat_jid == cj).length

/-! ### Example store -/

/-- A direct chat whose access flag is off. -/
def exChatBad : ChatRow :=
  { jid := "5550001@s.whatsapp.net", name := some "alice",
    last_message_time := some 10, is_allowed := false }

/-- An allowed group chat. -/
def exChatG : ChatRow :=
  { jid := "111@g.us", name := some "team", last_message_time := some 30,
    is_allowed := true }

def exR0 : MsgRow :=
  { id := "m0", chat_jid := "5550001@s.whatsapp.net", timestamp := 5,
    sender := "5550001@s.whatsapp.net", content := "secret", is_from_me := false,
    media_type := none }

def exR1 : MsgRow :=
  { id := "m1", chat_jid := "111@g.us", timestamp := 10,
    sender := "777@s.whatsapp.net", content := "hello there", is_from_me := false,
    media_type := none }

def exR2 : MsgRow :=
  { id := "m2", chat_jid := "111@g.us", timestamp := 20,
    sender := "777@s.whatsapp.net", content := "urgent meeting", is_from_me := false,
    media_type := none }

def exR3 : MsgRow :=
  { id := "m3", chat_jid := "111@g.us", timestamp := 30,
    sender := "888@s.whatsapp.net", content := "bye", is_from_me := true,
    media_type := some "image" }

/-- A small per-user store with one disallowed direct chat and one allowed
group chat holding three messages. -/
def exDb : Db :=
  { chats := [exChatBad, exChatG], messages := [exR0, exR1, exR2, exR3] }

/-- The joined form of `exR1`. -/
def exM1 : Message := mkMessage exR1 exChatG

/-- The joined form of `exR2`. -/
def exM2 : Message := mkMessage exR2 exChatG

/-- The joined form of `exR3`. -/
def exM3 : Message := mkMessage exR3 exChatG

/-! ### Helper lemmas -/

lemma mem_of_mem_page {α : Type} {l : List α} {n k : Nat} {x : α}
    (h : x ∈ (l.drop k).take n) : x ∈ l :=
  List.drop_subset k l (List.take_subset n _ h)

lemma mem_queryMessages {db : Db} {aT bT : Option Nat} {sd cj q : Option String}
    {l p : Nat} {x : Message} (h : x ∈ queryMessages db aT bT sd cj q l p) :
    ∃ pr, pr ∈ joinedRows db ∧ rowPasses aT bT sd cj q pr = true ∧
      x = mkMessage pr.1 pr.2 := by
  have h1 := mem_of_mem_page h
  rw [List.mem_insertionSort] at h1
  obtain ⟨pr, hpr, he⟩ := List.mem_map.mp h1
  exact ⟨pr, (List.mem_filter.mp hpr).1, (List.mem_filter.mp hpr).2, he.symm⟩

lemma mem_queryMessages_joinAll {db : Db} {aT bT : Option Nat}
    {sd cj q : Option String} {l p : Nat} {x : Message}
    (h : x ∈ queryMessages db aT bT sd cj q l p) : x ∈ joinAllMsgs db := by
  obtain ⟨pr, hpr, _, he⟩ := mem_queryMessages h
  exact he ▸ List.mem_map_of_mem _ hpr

lemma joinedRows_chat {db : Db} {pr : MsgRow × ChatRow} (h : pr ∈ joinedRows db) :
    pr.2 ∈ db.chats := by
  obtain ⟨m, _, hmap⟩ := List.mem_filterMap.mp h
  cases hfind : db.chats.find? fun c => c.jid == m.chat_jid with
  | none => rw [hfind] at hmap; cases hmap
  | some c =>
    rw [hfind] at hmap
    cases hmap
    exact List.mem_of_find?_eq_some hfind

lemma rowPasses_allowed {aT bT : Option Nat} {sd cj q : Option String}
    {pr : MsgRow × ChatRow} (h : rowPasses aT bT sd cj q pr = true) :
    pr.2.is_allowed = true := by
  simp only [rowPasses, Bool.and_eq_true] at h
  exact h.2.1

lemma queryMessages_chat_allowed {db : Db} {aT bT : Option Nat}
    {sd cj q : Option String} {l p : Nat} {x : Message}
    (h : x ∈ queryMessages db aT bT sd cj q l p) :
    ∃ ch ∈ db.chats, ch.jid = x.chat_jid ∧ ch.is_allowed = true := by
  obtain ⟨pr, hpr, hpass, he⟩ := mem_queryMessages h
  exact ⟨pr.2, joinedRows_chat hpr, by rw [he]; rfl, rowPasses_allowed hpass⟩

lemma find?_id_self {l : List Message}
    (hnd : (l.map fun m => m.id).Nodup) {m : Message} (hm : m ∈ l) :
    l.find? (fun x => x.id == m.id) = some m := by
  induction l with
  | nil => cases hm
  | cons x xs ih =>
    rw [List.map_cons, List.nodup_cons] at hnd
    rcases List.mem_cons.mp hm with rfl | hm'
    · exact List.find?_cons_of_pos _ (by simp)
    · have hne : (x.id == m.id) = false := by
        refine beq_eq_false_iff_ne.mpr fun he => hnd.1 ?_
        exact he ▸ List.mem_map_of_mem _ hm'
      rw [List.find?_cons_of_neg _ (by simp [hne])]
      exact ih hnd.2 hm'

lemma get_message_context_of_find {db : Db} {m : Message} (cb ca : Nat)
    (h : (joinAllMsgs db).find? (fun x => x.id == m.id) = some m) :
    get_message_context (some db) m.id cb ca =
      Except.ok
        { message := m
          before := ctxBefore db m.chat_jid m.timestamp cb
          after := ctxAfter db m.chat_jid m.timestamp ca } := by
  simp only [get_message_context, h]

lemma stitchCtx_eq {db : Db} {cb ca : Nat} :
    ∀ {ms : List Message},
      (∀ m ∈ ms, (joinAllMsgs db).find? (fun x => x.id == m.id) = some m) →
      stitchCtx (some db) cb ca ms = Except.ok (stitchPure db cb ca ms) := by
  intro ms
  induction ms with
  | nil => intro _; rfl
  | cons m rest ih =>
    intro h
    have hm := get_message_context_of_find cb ca (h m (List.mem_cons_self m rest))
    rw [stitchCtx, hm, ih fun x hx => h x (List.mem_cons_of_mem _ hx)]
    rfl

lemma mem_stitchPure {db : Db} {cb ca : Nat} :
    ∀ {ms : List Message} {x : Message}, x ∈ stitchPure db cb ca ms →
      ∃ m ∈ ms, x ∈ ctxBefore db m.chat_jid m.timestamp cb ∨ x = m ∨
        x ∈ ctxAfter db m.chat_jid m.timestamp ca := by
  intro ms
  induction ms with
  | nil => intro x hx; cases hx
  | cons m rest ih =>
    intro x hx
    rw [stitchPure] at hx
    simp only [List.append_assoc, List.mem_append, List.mem_singleton] at hx
    rcases hx with hb | he | ha | ht
    · exact ⟨m, List.mem_cons_self m rest, Or.inl hb⟩
    · exact ⟨m, List.mem_cons_self m rest, Or.inr (Or.inl he)⟩
    · exact ⟨m, List.mem_cons_self m rest, Or.inr (Or.inr ha)⟩
    · obtain ⟨m', hm', hc⟩ := ih ht
      exact ⟨m', List.mem_cons_of_mem _ hm', hc⟩

lemma ctxBefore_spec {db : Db} {chatJ : String} {ts n : Nat} {x : Message}
    (h : x ∈ ctxBefore db chatJ ts n) :
    x.chat_jid = chatJ ∧ x.timestamp < ts ∧ x ∈ joinAllMsgs db := by
  have h1 := List.mem_of_mem_take h
  rw [List.mem_insertionSort] at h1
  have h2 := List.mem_filter.mp h1
  refine ⟨?_, ?_, h2.1⟩
  · exact beq_iff_eq.mp (Bool.and_elim_left h2.2)
  · exact of_decide_eq_true (Bool.and_elim_right h2.2)

lemma ctxAfter_spec {db : Db} {chatJ : String} {ts n : Nat} {x : Message}
    (h : x ∈ ctxAfter db chatJ ts n) :
    x.chat_jid = chatJ ∧ ts < x.timestamp ∧ x ∈ joinAllMsgs db := by
  have h1 := List.mem_of_mem_take h
  rw [List.mem_insertionSort] at h1
  have h2 := List.mem_filter.mp h1
  refine ⟨?_, ?_, h2.1⟩
  · exact beq_iff_eq.mp (Bool.and_elim_left h2.2)
  · exact of_decide_eq_true (Bool.and_elim_right h2.2)

/-! ### Claim C7 -/

/-- C7 (confirmed): calling the multi-chat keyword filter with an empty
chat-identifier list fails fast — success `false`, zero matches, empty
result list — independently of the store connection (so before any store
query could execute). -/
theorem empty_chat_list_fails_fast (conn : Option Db) (keywords : List String)
    (ab bf sd : Option String) (cs ic : Bool) (cb ca limit page : Nat) (ro : Bool) :
    filter_messages_by_keywords_in_chats conn keywords [] ab bf sd cs ic cb ca
        limit page ro =
      { success := false, filtered_messages := [], total_matches := 0,
        keywords_used := keywords, chat_jids_searched := [],
        matches_per_chat := [] } := rfl

/-! ### Claim C9 -/

/-- C9 (confirmed): the keyword-matching step is idempotent — applying it,
with the same case-sensitivity setting, to the messages it already kept
returns exactly the same list of messages. -/
theorem keyword_filter_idempotent (cs : Bool) (kws : List String)
    (msgs : List Message) :
    keepMatching cs kws (keepMatching cs kws msgs) = keepMatching cs kws msgs := by
  unfold keepMatching
  induction msgs with
  | nil => rfl
  | cons m rest ih =>
    by_cases h : (matchedKeywords cs kws m).isEmpty
    · simp [List.filter_cons, h, ih]
    · simp [List.filter_cons, h, ih]

/-! ### Claim C4 -/

/-- C4 (corrected): on a store connection/query failure, the listing
operations `list_messages`, `list_chats` and `search_contacts` return an
empty result set rather than propagating — but this does not extend to
every read operation: `get_message_context` re-raises the store error. -/
theorem store_failure_degrades_listings (ab bf sd cj q : Option String)
    (limit page : Nat) (ic : Bool) (cb ca : Nat) (qc : Option String)
    (lc pc : Nat) (ilm : Bool) (sb qs mid : String) (nb na : Nat) :
    list_messages none ab bf sd cj q limit page ic cb ca = Except.ok [] ∧
    list_chats none qc lc pc ilm sb = [] ∧
    search_contacts none qs = [] ∧
    get_message_context none mid nb na = Except.error WaError.dbError :=
  ⟨rfl, rfl, rfl, rfl⟩

/-- C4 counterexample: at a failed store connection, the context read
propagates a store error instead of degrading to an empty result, so the
claim's "every read operation of the core" is false. -/
theorem store_failure_propagates_in_context :
    get_message_context none "m1" 5 5 = Except.error WaError.dbError := rfl

/-! ### Claim C8 -/

/-- C8 (corrected): every non-empty unparseable `after` bound fails naming
the `after` field and the offending value (regardless of the other
parameters); same for `before`; and with parseable-or-absent bounds no
other validation happens — the flat query succeeds.  (The empty string,
although unparseable, is treated as an absent bound, see the
counterexample.) -/
theorem date_bound_validation (db : Db) :
    (∀ (s : String) (bf sd cj q : Option String) (limit page : Nat)
        (ic : Bool) (cb ca : Nat), s ≠ "" → parseIso s = none →
        list_messages (some db) (some s) bf sd cj q limit page ic cb ca =
          Except.error (WaError.invalidFilter "after" s)) ∧
    (∀ (s : String) (sd cj q : Option String) (limit page : Nat)
        (ic : Bool) (cb ca : Nat), s ≠ "" → parseIso s = none →
        list_messages (some db) none (some s) sd cj q limit page ic cb ca =
          Except.error (WaError.invalidFilter "before" s)) ∧
    (∀ (sd cj q : Option String) (limit page cb ca : Nat),
        list_messages (some db) none none sd cj q limit page false cb ca =
          Except.ok (queryMessages db none none (optStr sd)
            ((optStr cj).map normalizeJid) (optStr q) limit page)) := by
  refine ⟨?_, ?_, ?_⟩
  · intro s bf sd cj q limit page ic cb ca hne hp
    simp [list_messages, parseBound, hne, hp]
  · intro s sd cj q limit page ic cb ca hne hp
    simp [list_messages, parseBound, hne, hp]
  · intro sd cj q limit page cb ca
    rfl

/-- C8 witness: a concrete malformed bound is rejected naming the bound and
the value. -/
theorem date_bound_validation_witness :
    list_messages (some exDb) (some "notadate") none none none none 20 0 true 1 1 =
      Except.error (WaError.invalidFilter "after" "notadate") :=
  (date_bound_validation exDb).1 "notadate" none none none none 20 0 true 1 1
    (by decide) (by decide)

/-- C8 counterexample: the empty string is not a parseable ISO-8601 date,
yet `list_messages` does not fail on it — Python truthiness makes an empty
bound behave as an absent one, so the claim's "every string" is false. -/
theorem empty_date_bound_skipped :
    list_messages (some exDb) (some "") none none none none 20 0 false 1 1 =
      Except.ok [exM3, exM2, exM1] ∧ parseIso "" = none :=
  ⟨rfl, rfl⟩

/-! ### Claim C2 counterexample -/

/-- C2 counterexample: for the store `exDb` the before-context of message
`m3` comes back `[m2, m1]` — newest first, exactly as fetched with
`ORDER BY timestamp DESC` — and is not in chronological order, so the
claim's "re-ordered chronologically" is false. -/
theorem message_context_before_newest_first :
    get_message_context (some exDb) "m3" 2 0 =
      Except.ok { message := exM3, before := [exM2, exM1], after := [] } ∧
    ¬ List.Pairwise rMsgAsc [exM2, exM1] :=
  ⟨rfl, by decide⟩

/-! ### Claim C1 counterexample -/

/-- C1 counterexample: `search_contacts` returns the contact of a chat
whose access flag is off — the contact-search query carries no
`is_allowed` condition. -/
theorem search_contacts_returns_disallowed_chat :
    search_contacts (some exDb) "alice" =
      [{ phone_number := "5550001", name := some "alice",
         jid := "5550001@s.whatsapp.net" }] ∧
    exChatBad ∈ exDb.chats ∧ exChatBad.is_allowed = false ∧
    exChatBad.jid = "5550001@s.whatsapp.net" :=
  ⟨rfl, by decide, rfl, rfl⟩

/-! ### Claim C3 counterexample -/

/-- C3 counterexample: with supplied chat identifiers
`["zzz@g.us", "111@g.us"]`, the chat `zzz@g.us` (which yields no candidate
messages) gets no entry in the per-chat breakdown, so the claim's "entry
for every supplied chat identifier" is false. -/
theorem per_chat_breakdown_omits_empty_chat :
    (filter_messages_by_keywords_in_chats (some exDb) ["urgent"]
        ["zzz@g.us", "111@g.us"] none none none false false 1 1 100 0
        true).matches_per_chat = [("111@g.us", 1)] ∧
    ((filter_messages_by_keywords_in_chats (some exDb) ["urgent"]
        ["zzz@g.us", "111@g.us"] none none none false false 1 1 100 0
        true).matches_per_chat.any fun p => p.1 == "zzz@g.us") = false :=
  ⟨rfl, rfl⟩

/-! ### Claim C5 -/

/-- C5 (confirmed): with context disabled, the keyword filter sorts the
kept matches newest-first (a permutation of the matches, descending in
timestamp), returns exactly the slice `[page*limit, page*limit+limit)` of
that sorted list, and reports the total match count of the whole
pre-pagination list. -/
theorem keyword_filter_sort_slice_total (db : Db) (kws : List String)
    (cj sd : Option String) (cs : Bool) (cb ca limit page : Nat) :
    let cands := queryMessages db none none (optStr sd)
      ((optStr cj).map normalizeJid) (optStr none) 1000 0
    let kmatches := kwAnnotate cs kws cands
    let r := filter_messages_by_keywords (some db) kws cj none none sd cs false
      cb ca limit page
    r.success = true ∧
    r.total_matches = kmatches.length ∧
    r.filtered_messages =
      ((List.insertionSort rOutDesc kmatches).drop (page * limit)).take limit ∧
    List.Perm (List.insertionSort rOutDesc kmatches) kmatches ∧
    List.Pairwise rOutDesc (List.insertionSort rOutDesc kmatches) := by
  intro cands kmatches r
  have hlm : list_messages (some db) none none sd cj none 1000 0 false 0 0 =
      Except.ok cands := rfl
  have hperm : List.Perm (List.insertionSort rOutDesc kmatches) kmatches :=
    List.perm_insertionSort rOutDesc kmatches
  have hsorted : List.Pairwise rOutDesc (List.insertionSort rOutDesc kmatches) :=
    List.sorted_insertionSort rOutDesc kmatches
  by_cases hemp : cands.isEmpty
  · have hc : cands = [] := List.isEmpty_iff.mp hemp
    have hr : r = (⟨true, [], 0, kws⟩ : FilterResult) := by
      show filter_messages_by_keywords (some db) kws cj none none sd cs false
        cb ca limit page = _
      rw [filter_messages_by_keywords, hlm]
      simp [hemp]
    have hm : kmatches = [] := by
      show kwAnnotate cs kws cands = []
      rw [hc]; rfl
    rw [hr, hm]
    exact ⟨rfl, rfl, by simp, by simp, by simp⟩
  · have hr : r = (⟨true,
        ((List.insertionSort rOutDesc kmatches).drop (page * limit)).take limit,
        kmatches.length, kws⟩ : FilterResult) := by
      show filter_messages_by_keywords (some db) kws cj none none sd cs false
        cb ca limit page = _
      rw [filter_messages_by_keywords, hlm]
      simp only [Bool.false_and, Bool.not_eq_true]
      rw [if_neg (by simp [hemp])]
      rfl
    rw [hr]
    exact ⟨rfl, rfl, rfl, hperm, hsorted⟩

/-! ### Claim C10 -/

lemma matchLoop_fst {cs : Bool} {kws : List String} :
    ∀ {msgs : List Message} {per : List (String × Nat)} {o : OutMsg},
      o ∈ (matchLoop cs kws msgs per).1 →
      o.msg ∈ msgs ∧ o.context_type = none := by
  intro msgs
  induction msgs with
  | nil => intro per o ho; cases ho
  | cons m rest ih =>
    intro per o ho
    rw [matchLoop] at ho
    by_cases h : (matchedKeywords cs kws m).isEmpty
    · rw [if_pos h] at ho
      obtain ⟨hm, hc⟩ := ih ho
      exact ⟨List.mem_cons_of_mem _ hm, hc⟩
    · rw [if_neg h] at ho
      rcases List.mem_cons.mp ho with rfl | ho'
      · exact ⟨List.mem_cons_self m rest, rfl⟩
      · obtain ⟨hm, hc⟩ := ih ho'
        exact ⟨List.mem_cons_of_mem _ hm, hc⟩

/-- C10 (confirmed): in the multi-chat keyword filter, with the default
`return_original_only = true` the result is identical to the
context-disabled run — context is attached only when `include_context` is
true and `return_original_only` is false — and every returned record is an
untagged match (no `context_type`). -/
theorem return_original_only_suppresses_context (conn : Option Db)
    (kws jids : List String) (ab bf sd : Option String) (cs ic : Bool)
    (cb ca limit page : Nat) :
    filter_messages_by_keywords_in_chats conn kws jids ab bf sd cs ic cb ca
        limit page true =
      filter_messages_by_keywords_in_chats conn kws jids ab bf sd cs false cb ca
        limit page true ∧
    ∀ o ∈ (filter_messages_by_keywords_in_chats conn kws jids ab bf sd cs ic cb ca
        limit page true).filtered_messages, o.context_type = none := by
  constructor
  · cases ic <;> rfl
  · intro o ho
    cases ic <;>
    · simp only [filter_messages_by_keywords_in_chats, Bool.not_true,
        Bool.and_false, Bool.false_and, Bool.true_and] at ho
      split at ho
      · simp at ho
      · split at ho
        · simp at ho
        · rename_i allMsgs perInit _
          split at ho
          · simp at ho
          · simp only [Bool.false_eq_true, if_false] at ho
            have ho' : o ∈ ((List.insertionSort rOutDesc
                (matchLoop cs kws allMsgs perInit).1).drop (page * limit)).take
                limit := ho
            have h1 := mem_of_mem_page ho'
            rw [List.mem_insertionSort] at h1
            exact (matchLoop_fst h1).2

/-! ### Claim C2 -/

/-- C2 (corrected): for every found message id and counts (b, a), the
context holds at most `b` before-messages, all in the target's chat with
strictly earlier timestamps but ordered newest-first (descending — the code
never re-orders them chronologically), and at most `a` after-messages, all
in the target's chat with strictly later timestamps, oldest-first; the
target message is the stored record found by id, unchanged. -/
theorem message_context_shape (db : Db) (mid : String) (b a : Nat)
    (ctx : MessageContext)
    (h : get_message_context (some db) mid b a = Except.ok ctx) :
    ctx.before.length ≤ b ∧
    (∀ m ∈ ctx.before, m.chat_jid = ctx.message.chat_jid ∧
      m.timestamp < ctx.message.timestamp) ∧
    List.Pairwise rMsgDesc ctx.before ∧
    ctx.after.length ≤ a ∧
    (∀ m ∈ ctx.after, m.chat_jid = ctx.message.chat_jid ∧
      ctx.message.timestamp < m.timestamp) ∧
    List.Pairwise rMsgAsc ctx.after ∧
    (joinAllMsgs db).find? (fun x => x.id == mid) = some ctx.message := by
  simp only [get_message_context] at h
  cases hf : (joinAllMsgs db).find? fun x => x.id == mid with
  | none => rw [hf] at h; cases h
  | some t =>
    rw [hf] at h
    cases h
    refine ⟨List.length_take_le b _, ?_, ?_, List.length_take_le a _, ?_, ?_, rfl⟩
    · intro m hm
      obtain ⟨hcj, hts, _⟩ := ctxBefore_spec hm
      exact ⟨hcj, hts⟩
    · exact List.Pairwise.sublist (List.take_sublist _ _)
        (List.sorted_insertionSort rMsgDesc _)
    · intro m hm
      obtain ⟨hcj, hts, _⟩ := ctxAfter_spec hm
      exact ⟨hcj, hts⟩
    · exact List.Pairwise.sublist (List.take_sublist _ _)
        (List.sorted_insertionSort rMsgAsc _)

/-- The context of `m3` in the example store. -/
def exCtx3 : MessageContext :=
  { message := exM3, before := [exM2, exM1], after := [] }

/-- C2 witness: the amended context shape at a concrete store and message. -/
theorem message_context_shape_witness :
    exCtx3.before.length ≤ 2 ∧
    (∀ m ∈ exCtx3.before, m.chat_jid = exCtx3.message.chat_jid ∧
      m.timestamp < exCtx3.message.timestamp) ∧
    List.Pairwise rMsgDesc exCtx3.before ∧
    exCtx3.after.length ≤ 2 ∧
    (∀ m ∈ exCtx3.after, m.chat_jid = exCtx3.message.chat_jid ∧
      exCtx3.message.timestamp < m.timestamp) ∧
    List.Pairwise rMsgAsc exCtx3.after ∧
    (joinAllMsgs exDb).find? (fun x => x.id == "m3") = some exCtx3.message :=
  message_context_shape exDb "m3" 2 2 exCtx3 rfl

/-! ### Claim C6 -/

/-- C6 (confirmed): with context enabled and distinct message ids,
`list_messages` returns, for every candidate of the flat page in page
order, its before-context, the candidate itself and its after-context,
concatenated — so the returned sequence is the stitched page, not a
`limit`-sized one. -/
theorem list_messages_context_stitch (db : Db)
    (hid : ((joinAllMsgs db).map fun m => m.id).Nodup)
    (sender chat_jid query : Option String) (limit page cb ca : Nat) :
    list_messages (some db) none none sender chat_jid query limit page true cb ca =
      Except.ok (stitchPure db cb ca
        (queryMessages db none none (optStr sender)
          ((optStr chat_jid).map normalizeJid) (optStr query) limit page)) := by
  have hsub : ∀ m ∈ queryMessages db none none (optStr sender)
      ((optStr chat_jid).map normalizeJid) (optStr query) limit page,
      (joinAllMsgs db).find? (fun x => x.id == m.id) = some m :=
    fun m hm => find?_id_self hid (mem_queryMessages_joinAll hm)
  show (if (true && !(queryMessages db none none (optStr sender)
        ((optStr chat_jid).map normalizeJid) (optStr query) limit page).isEmpty) = true
      then stitchCtx (some db) cb ca (queryMessages db none none (optStr sender)
        ((optStr chat_jid).map normalizeJid) (optStr query) limit page)
      else Except.ok (queryMessages db none none (optStr sender)
        ((optStr chat_jid).map normalizeJid) (optStr query) limit page)) = _
  by_cases hemp : (queryMessages db none none (optStr sender)
      ((optStr chat_jid).map normalizeJid) (optStr query) limit page).isEmpty
  · rw [if_neg (by simp [hemp])]
    rw [List.isEmpty_iff.mp hemp]
    rfl
  · rw [if_pos (by simp [hemp])]
    exact stitchCtx_eq hsub

/-- C6 witness: the stitched shape at a concrete store and page. -/
theorem list_messages_context_stitch_witness :
    (((joinAllMsgs exDb).map fun m => m.id).Nodup) ∧
    list_messages (some exDb) none none none none none 2 0 true 1 1 =
      Except.ok (stitchPure exDb 1 1
        (queryMessages exDb none none (optStr none)
          ((optStr none).map normalizeJid) (optStr none) 2 0)) :=
  ⟨by decide, list_messages_context_stitch exDb (by decide) none none none 2 0 1 1⟩

/-! ### Claim C1 -/

/-- C1 (corrected): under the store invariants (distinct message ids,
distinct chat jids), for every chat whose access flag is off, `list_chats`
never returns that chat and `list_messages` never returns any of its
messages — but not every search path filters: `search_contacts` carries no
access-flag condition (see the counterexample). -/
theorem access_flag_scope (db : Db)
    (hmid : ((joinAllMsgs db).map fun m => m.id).Nodup)
    (hcid : (db.chats.map fun ch => ch.jid).Nodup)
    (c : ChatRow) (hc : c ∈ db.chats) (hal : c.is_allowed = false) :
    (∀ (q : Option String) (limit page : Nat) (ilm : Bool) (sb : String),
        ∀ co ∈ list_chats (some db) q limit page ilm sb, co.jid ≠ c.jid) ∧
    (∀ (ab bf sd cj q : Option String) (limit page : Nat) (ic : Bool)
        (cb ca : Nat) (r : List Message),
        list_messages (some db) ab bf sd cj q limit page ic cb ca = Except.ok r →
        ∀ m ∈ r, m.chat_jid ≠ c.jid) := by
  have hne : ∀ {x : Message},
      (∃ ch ∈ db.chats, ch.jid = x.chat_jid ∧ ch.is_allowed = true) →
      x.chat_jid ≠ c.jid := by
    rintro x ⟨ch, hch, hjid, hallow⟩ he
    have hcc : ch = c :=
      List.inj_on_of_nodup_map hcid hch hc (by rw [hjid, he])
    rw [hcc, hal] at hallow
    cases hallow
  constructor
  · intro q limit page ilm sb co hco
    cases ilm with
    | false => simp [list_chats] at hco
    | true =>
      simp only [list_chats, if_pos] at hco
      obtain ⟨row, hrow, he⟩ := List.mem_map.mp hco
      have hrow2 := mem_of_mem_page hrow
      have hrow3 : row ∈ db.chats.filter fun ch =>
          chatQueryPasses (optStr q) ch &&
            (ch.is_allowed && sqlLikeEndsWith ch.jid "@g.us") := by
        by_cases hsb : sb = "last_active"
        · rw [if_pos hsb] at hrow2
          exact (List.mem_insertionSort rChatActive).mp hrow2
        · rw [if_neg hsb] at hrow2
          exact (List.mem_insertionSort rChatName).mp hrow2
      have hmem := List.mem_filter.mp hrow3
      have hallow : row.is_allowed = true := by
        have h2 := hmem.2
        simp only [Bool.and_eq_true] at h2
        exact h2.2.1
      intro he2
      have hj : row.jid = c.jid := by
        have : co.jid = row.jid := by rw [← he]; rfl
        rw [← this, he2]
      have hrc : row = c := List.inj_on_of_nodup_map hcid hmem.1 hc hj
      rw [hrc, hal] at hallow
      cases hallow
  · intro ab bf sd cj q limit page ic cb ca r h m hm
    simp only [list_messages] at h
    cases hpa : parseBound "after" ab with
    | error e => rw [hpa] at h; cases h
    | ok aT =>
      rw [hpa] at h
      cases hpb : parseBound "before" bf with
      | error e => rw [hpb] at h; cases h
      | ok bT =>
        rw [hpb] at h
        replace h : (if (ic && !(queryMessages db aT bT (optStr sd)
            ((optStr cj).map normalizeJid) (optStr q) limit page).isEmpty) = true
          then stitchCtx (some db) cb ca (queryMessages db aT bT (optStr sd)
            ((optStr cj).map normalizeJid) (optStr q) limit page)
          else Except.ok (queryMessages db aT bT (optStr sd)
            ((optStr cj).map normalizeJid) (optStr q) limit page)) = Except.ok r := h
        by_cases hcond : (ic && !(queryMessages db aT bT (optStr sd)
            ((optStr cj).map normalizeJid) (optStr q) limit page).isEmpty) = true
        · rw [if_pos hcond] at h
          have hsub : ∀ x ∈ queryMessages db aT bT (optStr sd)
              ((optStr cj).map normalizeJid) (optStr q) limit page,
              (joinAllMsgs db).find? (fun y => y.id == x.id) = some x :=
            fun x hx => find?_id_self hmid (mem_queryMessages_joinAll hx)
          rw [stitchCtx_eq hsub] at h
          cases h
          obtain ⟨m0, hm0, hcase⟩ := mem_stitchPure hm
          have hm0ne : m0.chat_jid ≠ c.jid := hne (queryMessages_chat_allowed hm0)
          rcases hcase with hb | rfl | ha
          · rw [(ctxBefore_spec hb).1]; exact hm0ne
          · exact hm0ne
          · rw [(ctxAfter_spec ha).1]; exact hm0ne
        · rw [if_neg hcond] at h
          cases h
          exact hne (queryMessages_chat_allowed hm)

/-- C1 witness: the amended access-flag scope applied at the example store
and its disallowed chat. -/
theorem access_flag_scope_witness : exM3.chat_jid ≠ exChatBad.jid :=
  (access_flag_scope exDb (by decide) (by decide) exChatBad (by decide)
      (by decide)).2
    none none none none none 20 0 false 1 1 [exM3, exM2, exM1] rfl exM3 (by decide)

/-! ### Claim C3 -/

lemma lookup_setAssoc_self (k : String) (v : Nat) :
    ∀ l, lookupAssoc k (setAssoc k v l) = some v := by
  intro l
  induction l with
  | nil => simp [setAssoc, lookupAssoc]
  | cons p rest ih =>
    rw [setAssoc]
    by_cases h : (p.1 == k) = true
    · rw [if_pos h]
      simp [lookupAssoc, h]
    · have h' : (p.1 == k) = false := by simpa using h
      rw [if_neg h]
      simp [lookupAssoc, h', ih]

lemma lookup_setAssoc_ne {k k' : String} (h : k ≠ k') (v : Nat) :
    ∀ l, lookupAssoc k' (setAssoc k v l) = lookupAssoc k' l := by
  intro l
  induction l with
  | nil =>
    simp [setAssoc, lookupAssoc, beq_eq_false_iff_ne.mpr h]
  | cons p rest ih =>
    rw [setAssoc]
    by_cases hp : (p.1 == k) = true
    · have hpk : p.1 = k := beq_iff_eq.mp hp
      have hne : (p.1 == k') = false :=
        beq_eq_false_iff_ne.mpr (by rw [hpk]; exact h)
      rw [if_pos hp]
      simp [lookupAssoc, hne]
    · rw [if_neg hp]
      simp only [lookupAssoc]
      by_cases hk : (p.1 == k') = true
      · rw [if_pos hk, if_pos hk]
      · rw [if_neg hk, if_neg hk]
        exact ih

lemma lookup_bumpAssoc_self (k : String) :
    ∀ l, lookupAssoc k (bumpAssoc k l) = (lookupAssoc k l).map (· + 1) := by
  intro l
  induction l with
  | nil => simp [bumpAssoc, lookupAssoc]
  | cons p rest ih =>
    rw [bumpAssoc]
    by_cases h : (p.1 == k) = true
    · rw [if_pos h]
      simp [lookupAssoc, h]
    · have h' : (p.1 == k) = false := by simpa using h
      rw [if_neg h]
      simp [lookupAssoc, h', ih]

lemma lookup_bumpAssoc_ne {k k' : String} (h : k ≠ k') :
    ∀ l, lookupAssoc k' (bumpAssoc k l) = lookupAssoc k' l := by
  intro l
  induction l with
  | nil => rfl
  | cons p rest ih =>
    rw [bumpAssoc]
    by_cases hp : (p.1 == k) = true
    · have hpk : p.1 = k := beq_iff_eq.mp hp
      have hne : (p.1 == k') = false :=
        beq_eq_false_iff_ne.mpr (by rw [hpk]; exact h)
      rw [if_pos hp]
      simp [lookupAssoc, hne]
    · rw [if_neg hp]
      simp only [lookupAssoc]
      by_cases hk : (p.1 == k') = true
      · rw [if_pos hk, if_pos hk]
      · rw [if_neg hk, if_neg hk]
        exact ih

lemma collectChats_eq (db : Db) (sd : Option String) :
    ∀ (jids : List String) (accM : List Message) (accP : List (String × Nat)),
      collectChats (some db) none none sd jids accM accP =
        Except.ok (accM ++ collectedMsgs db sd jids, collectPer db sd jids accP) := by
  intro jids
  induction jids with
  | nil => intro accM accP; simp [collectChats, collectedMsgs, collectPer]
  | cons cj rest ih =>
    intro accM accP
    show (if (flatFetch db sd cj).isEmpty = true
        then collectChats (some db) none none sd rest accM accP
        else collectChats (some db) none none sd rest (accM ++ flatFetch db sd cj)
          (setAssoc cj 0 accP)) = _
    by_cases hemp : (flatFetch db sd cj).isEmpty = true
    · rw [if_pos hemp, ih, collectedMsgs, collectPer, if_pos hemp,
        List.isEmpty_iff.mp hemp, List.nil_append]
    · rw [if_neg hemp, ih, collectedMsgs, collectPer, if_neg hemp,
        List.append_assoc]

lemma lookup_collectPer (db : Db) (sd : Option String) (cj : String) :
    ∀ (jids : List String) (accP : List (String × Nat)),
      lookupAssoc cj (collectPer db sd jids accP) =
        if (jids.any fun c => c == cj && !(flatFetch db sd c).isEmpty) = true
        then some 0 else lookupAssoc cj accP := by
  intro jids
  induction jids with
  | nil => intro accP; simp [collectPer]
  | cons c rest ih =>
    intro accP
    rw [collectPer]
    by_cases hemp : (flatFetch db sd c).isEmpty = true
    · rw [if_pos hemp, ih]
      simp [List.any_cons, hemp]
    · rw [if_neg hemp, ih]
      by_cases hany : (rest.any fun x => x == cj && !(flatFetch db sd x).isEmpty) = true
      · simp [List.any_cons, hany]
      · have hemp' : (flatFetch db sd c).isEmpty = false := by simpa using hemp
        by_cases hceq : (c == cj) = true
        · have hcc : c = cj := beq_iff_eq.mp hceq
          subst hcc
          rw [lookup_setAssoc_self]
          simp [List.any_cons, hany, hemp']
        · have hcc : c ≠ cj := fun he => hceq (beq_iff_eq.mpr he)
          rw [lookup_setAssoc_ne hcc]
          simp [List.any_cons, hany, hceq]

lemma flatFetch_nil_of_collected_nil {db : Db} {sd : Option String} :
    ∀ {jids : List String}, collectedMsgs db sd jids = [] →
      ∀ c ∈ jids, flatFetch db sd c = [] := by
  intro jids
  induction jids with
  | nil => intro _ c hc; cases hc
  | cons cj rest ih =>
    intro h c hc
    rw [collectedMsgs] at h
    obtain ⟨h1, h2⟩ := List.append_eq_nil.mp h
    rcases List.mem_cons.mp hc with rfl | hc'
    · exact h1
    · exact ih h2 c hc'

lemma mem_collectedMsgs {db : Db} {sd : Option String} :
    ∀ {jids : List String} {x : Message},
      x ∈ collectedMsgs db sd jids → x ∈ joinAllMsgs db := by
  intro jids
  induction jids with
  | nil => intro x hx; cases hx
  | cons cj rest ih =>
    intro x hx
    rw [collectedMsgs] at hx
    rcases List.mem_append.mp hx with h1 | h2
    · exact mem_queryMessages_joinAll
        (show x ∈ queryMessages db none none (optStr sd)
          ((optStr (some cj)).map normalizeJid) (optStr none) 1000 0 from h1)
    · exact ih h2

lemma matchLoop_lookup (cs : Bool) (kws : List String) (cj : String) :
    ∀ (msgs : List Message) (per : List (String × Nat)),
      lookupAssoc cj (matchLoop cs kws msgs per).2 =
        (lookupAssoc cj per).map (· + matchCount cs kws cj msgs) := by
  intro msgs
  induction msgs with
  | nil =>
    intro per
    cases h : lookupAssoc cj per <;> simp [matchLoop, matchCount, h]
  | cons m rest ih =>
    intro per
    rw [matchLoop]
    by_cases hk : (matchedKeywords cs kws m).isEmpty = true
    · rw [if_pos hk, ih]
      have hcount : matchCount cs kws cj (m :: rest) = matchCount cs kws cj rest := by
        rw [matchCount, matchCount, List.filter_cons]
        simp [hk]
      rw [hcount]
    · rw [if_neg hk]
      show lookupAssoc cj (matchLoop cs kws rest (bumpAssoc m.chat_jid per)).2 = _
      rw [ih]
      by_cases hcj : m.chat_jid = cj
      · rw [hcj, lookup_bumpAssoc_self]
        have hcount : matchCount cs kws cj (m :: rest) =
            matchCount cs kws cj rest + 1 := by
          rw [matchCount, matchCount, List.filter_cons]
          simp [hk, hcj]
        rw [hcount]
        cases h : lookupAssoc cj per <;>
          simp [Nat.add_comm, Nat.add_assoc, Nat.add_left_comm]
      · rw [lookup_bumpAssoc_ne hcj]
        have hcount : matchCount cs kws cj (m :: rest) = matchCount cs kws cj rest := by
          rw [matchCount, matchCount, List.filter_cons]
          simp [beq_eq_false_iff_ne.mpr hcj]
        rw [hcount]

lemma stitchKw_ok (db : Db) (cb ca : Nat) :
    ∀ {os : List OutMsg}, (∀ o ∈ os, o.msg ∈ joinAllMsgs db) →
      ∃ res, stitchKw (some db) cb ca os = Except.ok res := by
  intro os
  induction os with
  | nil => intro _; exact ⟨[], rfl⟩
  | cons o rest ih =>
    intro h
    have hmem := h o (List.mem_cons_self o rest)
    have hsome : ((joinAllMsgs db).find? fun x => x.id == o.msg.id).isSome := by
      rw [List.find?_isSome]
      exact ⟨o.msg, hmem, by simp⟩
    obtain ⟨t, ht⟩ := Option.isSome_iff_exists.mp hsome
    have hgmc : get_message_context (some db) o.msg.id cb ca =
        Except.ok
          { message := t
            before := ctxBefore db t.chat_jid t.timestamp cb
            after := ctxAfter db t.chat_jid t.timestamp ca } := by
      simp [get_message_context, ht]
    obtain ⟨tail, htail⟩ := ih fun x hx => h x (List.mem_cons_of_mem _ hx)
    refine ⟨((ctxBefore db t.chat_jid t.timestamp cb).map fun m =>
        (⟨m, none, some CtxRole.beforeCtx⟩ : OutMsg)) ++
      [{ o with context_type := some CtxRole.matchCtx }] ++
      ((ctxAfter db t.chat_jid t.timestamp ca).map fun m =>
        (⟨m, none, some CtxRole.afterCtx⟩ : OutMsg)) ++ tail, ?_⟩
    rw [stitchKw, hgmc, htail]

/-- C3 (corrected): the per-chat breakdown reports exactly the supplied
chat identifiers whose candidate fetch is non-empty: such a chat's counter
is initialized to 0 and ends at its number of keyword matches among the
collected candidates (in particular 0 for a chat with messages but no
matches), while a supplied chat whose fetch is empty has no entry at all. -/
theorem per_chat_breakdown_keys (db : Db) (kws : List String)
    (jids : List String) (sd : Option String) (cs ic : Bool)
    (cb ca limit page : Nat) (ro : Bool) (hne : jids ≠ []) :
    ∀ cj ∈ jids,
      lookupAssoc cj (filter_messages_by_keywords_in_chats (some db) kws jids
          none none sd cs ic cb ca limit page ro).matches_per_chat =
        if (flatFetch db sd cj).isEmpty = true then none
        else some (matchCount cs kws cj (collectedMsgs db sd jids)) := by
  intro cj hcj
  have hjne : jids.isEmpty = false := by
    cases jids with
    | nil => cases hne rfl
    | cons _ _ => rfl
  unfold filter_messages_by_keywords_in_chats
  rw [if_neg (by simp [hjne]), collectChats_eq db sd jids [] [], List.nil_append]
  show lookupAssoc cj
      ((if (collectedMsgs db sd jids).isEmpty = true then
          (⟨true, [], 0, kws, jids, collectPer db sd jids []⟩ : ChatsFilterResult)
        else
          match (if (ic && !ro &&
              !(((List.insertionSort rOutDesc (matchLoop cs kws
                (collectedMsgs db sd jids) (collectPer db sd jids [])).1).drop
                (page * limit)).take limit).isEmpty) = true
            then stitchKw (some db) cb ca (((List.insertionSort rOutDesc
              (matchLoop cs kws (collectedMsgs db sd jids)
                (collectPer db sd jids [])).1).drop (page * limit)).take limit)
            else Except.ok (((List.insertionSort rOutDesc
              (matchLoop cs kws (collectedMsgs db sd jids)
                (collectPer db sd jids [])).1).drop (page * limit)).take limit)) with
          | Except.error _ => (⟨false, [], 0, kws, jids, []⟩ : ChatsFilterResult)
          | Except.ok finalMsgs =>
            (⟨true, finalMsgs, (matchLoop cs kws (collectedMsgs db sd jids)
              (collectPer db sd jids [])).1.length, kws, jids,
              (matchLoop cs kws (collectedMsgs db sd jids)
                (collectPer db sd jids [])).2⟩ : ChatsFilterResult))).matches_per_chat = _
  by_cases hall : (collectedMsgs db sd jids).isEmpty = true
  · rw [if_pos hall]
    show lookupAssoc cj (collectPer db sd jids []) = _
    rw [lookup_collectPer]
    have hcempty := flatFetch_nil_of_collected_nil (List.isEmpty_iff.mp hall)
    have h1 : (jids.any fun c => c == cj && !(flatFetch db sd c).isEmpty) = false := by
      rw [List.any_eq_false]
      intro c hc
      simp [hcempty c hc]
    rw [h1]
    simp [hcempty cj hcj, lookupAssoc]
  · rw [if_neg hall]
    have hmemchain : ∀ o ∈ ((List.insertionSort rOutDesc
        (matchLoop cs kws (collectedMsgs db sd jids)
          (collectPer db sd jids [])).1).drop (page * limit)).take limit,
        o.msg ∈ joinAllMsgs db := by
      intro o ho
      have h1 := mem_of_mem_page ho
      rw [List.mem_insertionSort] at h1
      exact mem_collectedMsgs (matchLoop_fst h1).1
    obtain ⟨stres, hst⟩ := stitchKw_ok db cb ca hmemchain
    have hfinal : lookupAssoc cj (matchLoop cs kws (collectedMsgs db sd jids)
        (collectPer db sd jids [])).2 =
        if (flatFetch db sd cj).isEmpty = true then none
        else some (matchCount cs kws cj (collectedMsgs db sd jids)) := by
      rw [matchLoop_lookup, lookup_collectPer]
      by_cases hfe : (flatFetch db sd cj).isEmpty = true
      · have h1 : (jids.any fun c => c == cj && !(flatFetch db sd c).isEmpty) = false := by
          rw [List.any_eq_false]
          intro c hc
          by_cases hcc : (c == cj) = true
          · have hcc2 : c = cj := beq_iff_eq.mp hcc
            simp [hcc2, hfe]
          · simp [hcc]
        rw [h1]
        simp [lookupAssoc, hfe]
      · have h1 : (jids.any fun c => c == cj && !(flatFetch db sd c).isEmpty) = true :=
          List.any_eq_true.mpr ⟨cj, hcj, by simp [hfe]⟩
        rw [h1]
        simp [hfe]
    by_cases hcond : (ic && !ro &&
        !(((List.insertionSort rOutDesc (matchLoop cs kws (collectedMsgs db sd jids)
          (collectPer db sd jids [])).1).drop (page * limit)).take limit).isEmpty) = true
    · rw [if_pos hcond, hst]
      exact hfinal
    · rw [if_neg hcond]
      exact hfinal

/-- C3 witness: the amended per-chat breakdown characterization at the
example store: the chat with candidates is reported with its match count. -/
theorem per_chat_breakdown_keys_witness :
    lookupAssoc "111@g.us" (filter_messages_by_keywords_in_chats (some exDb)
        ["urgent"] ["zzz@g.us", "111@g.us"] none none none false false 1 1 100 0
        true).matches_per_chat =
      if (flatFetch exDb none "111@g.us").isEmpty = true then none
      else some (matchCount false ["urgent"] "111@g.us"
        (collectedMsgs exDb none ["zzz@g.us", "111@g.us"])) :=
  per_chat_breakdown_keys exDb ["urgent"] ["zzz@g.us", "111@g.us"] none false false
    1 1 100 0 true (by decide) "111@g.us" (by decide)

end WhatsappMcp
